import Mathlib

/-!
Shallow embedding of the Pipeline Heat Loss Calculator
(src/pipe_heat_loss_app.py).  Floating-point arithmetic in the source is
modelled over the reals; numpy float sequences become lists of reals.
-/

namespace PipeHeatLoss

open Real

/-- The film coefficient `convective_h(wind_mph) = 1.5 + 0.25 * wind_mph`. -/
noncomputable def convective_h (wind_mph : ℝ) : ℝ := 1.5 + 0.25 * wind_mph

/-- Single-wall conductance per mile: two series resistances,
wall conduction and outside convection. -/
noncomputable def compute_UA_per_mile (r_i_ft r_o_ft k_wall h_out : ℝ) : ℝ :=
  let perimeter := 2 * Real.pi * r_o_ft
  let area_per_mile := perimeter * 5280.0
  let R_wall := Real.log (r_o_ft / r_i_ft) / (2 * Real.pi * k_wall * 5280.0)
  let R_out := 1.0 / (h_out * area_per_mile)
  1.0 / (R_wall + R_out)

/-- radius in feet of a diameter given in inches: `(d_in / 12) / 2`. -/
noncomputable def r_ft (d_in : ℝ) : ℝ := (d_in / 12.0) / 2.0

/-- Nested dual-wall conductance per mile: four series resistances. -/
noncomputable def UA_per_mile_nested (inner_nom_in outer_nom_in wall_in
    k_wall h_out k_eff_air : ℝ) : ℝ :=
  let r_o_inner := r_ft inner_nom_in
  let r_i_inner := r_ft (inner_nom_in - 2.0 * wall_in)
  let r_o_outer := r_ft outer_nom_in
  let r_i_outer := r_ft (outer_nom_in - 2.0 * wall_in)
  let R_inner := Real.log (r_o_inner / r_i_inner) / (2 * Real.pi * k_wall * 5280.0)
  let R_air := Real.log (r_i_outer / r_o_inner) / (2 * Real.pi * k_eff_air * 5280.0)
  let R_outer := Real.log (r_o_outer / r_i_outer) / (2 * Real.pi * k_wall * 5280.0)
  let A_out := 2 * Real.pi * r_o_outer * 5280.0
  let R_o := 1.0 / (h_out * A_out)
  1.0 / (R_inner + R_air + R_outer + R_o)

/-- Specific heat `cp = 1.0` Btu/lb-F (water). -/
noncomputable def cp : ℝ := 1.0

/-- Density constant `lb_per_bbl = 42.0 * 8.34` lb/bbl. -/
noncomputable def lb_per_bbl : ℝ := 42.0 * 8.34

/-- Mass flow per hour `m_dot = f * lb_per_bbl * 60.0` at `f` bbl/min. -/
noncomputable def m_dot (f : ℝ) : ℝ := f * lb_per_bbl * 60.0

/-- Heat capacity rate `mcp = m_dot * cp`. -/
noncomputable def mcp (f : ℝ) : ℝ := m_dot f * cp

/-- The decay exponent `k = UA_total / mcp if mcp > 0 else 0.0`. -/
noncomputable def kExponent (UA_total f : ℝ) : ℝ :=
  if mcp f > 0 then UA_total / mcp f else 0.0

/-- Required inlet temperature `T_in_required = T_amb + (T_out_target - T_amb) * exp(k)`. -/
noncomputable def T_in_required (T_amb T_out_target UA_total f : ℝ) : ℝ :=
  T_amb + (T_out_target - T_amb) * Real.exp (kExponent UA_total f)

/-- Heat loss `Q_loss = mcp * (T_in_required - T_out_target)` (Btu/hr, before the
1e6 display scaling). -/
noncomputable def Q_loss (T_amb T_out_target UA_total f : ℝ) : ℝ :=
  mcp f * (T_in_required T_amb T_out_target UA_total f - T_out_target)

/-- The per-sample scalar conditions the sweep loop reads. -/
structure Conditions where
  T_amb : ℝ
  T_out_target : ℝ
  T_source : ℝ
  eff_frac : ℝ
  fuel_price : ℝ
  btu_per_unit : ℝ

/-- One row of the result table, holding exactly the values the loop
appends to its five lists (loss and duty are divided by 1e6 there). -/
structure ThermalResult where
  flowRate : ℝ
  requiredInletTemp : ℝ
  outletTemp : ℝ
  heatLossRate : ℝ
  heaterDuty : ℝ
  dailyFuelCost : ℝ

/-- Body of the sweep loop for one flow sample `f`. -/
noncomputable def computeSample (c : Conditions) (UA_total f : ℝ) : ThermalResult :=
  let tin := T_in_required c.T_amb c.T_out_target UA_total f
  if c.T_source < tin then
    { flowRate := f
      requiredInletTemp := tin
      outletTemp := c.T_out_target
      heatLossRate := Q_loss c.T_amb c.T_out_target UA_total f / 1e6
      heaterDuty := mcp f * (tin - c.T_source) / 1e6
      dailyFuelCost := ((mcp f * (tin - c.T_source) * 24) / c.eff_frac)
        / c.btu_per_unit * c.fuel_price }
  else
    { flowRate := f
      requiredInletTemp := tin
      outletTemp := c.T_amb + (c.T_source - c.T_amb)
        * Real.exp (-(kExponent UA_total f))
      heatLossRate := Q_loss c.T_amb c.T_out_target UA_total f / 1e6
      heaterDuty := 0
      dailyFuelCost := 0 }

/-- Embedding of `np.arange(start, stop, step)` for positive `step`: the values
`start + i*step` for `0 ≤ i < ⌈(stop - start)/step⌉` (length clamped at 0). -/
noncomputable def arange (start stop step : ℝ) : List ℝ :=
  (List.range (⌈(stop - start) / step⌉.toNat)).map fun i : ℕ => start + (i : ℝ) * step

/-- Nested-configuration parameters (`nested_cfg` dict). -/
structure NestedCfg where
  inner_nom_in : ℝ
  outer_nom_in : ℝ
  k_eff_air : ℝ
  add_5pct : Bool

/-- Full argument record of `inlet_temp_curve`. -/
structure Config where
  T_amb : ℝ
  wind_mph : ℝ
  length_miles : ℝ
  id_in : ℝ
  wall_in : ℝ
  k_wall : ℝ
  T_out_target : ℝ
  T_source : ℝ
  eff_frac : ℝ
  fuel_price : ℝ
  btu_per_unit : ℝ
  flow_min : ℝ
  flow_max : ℝ
  flow_step : ℝ
  nested_cfg : Option NestedCfg

/-- The scalar conditions the loop reads from a configuration. -/
noncomputable def Config.conds (cfg : Config) : Conditions :=
  { T_amb := cfg.T_amb, T_out_target := cfg.T_out_target,
    T_source := cfg.T_source, eff_frac := cfg.eff_frac,
    fuel_price := cfg.fuel_price, btu_per_unit := cfg.btu_per_unit }

/-- Conductance per mile `UA_pm` as computed by `inlet_temp_curve`: nested variant (optionally
scaled by 1.05) when `nested_cfg` is given, else the single-wall formula on
radii derived from `id_in` and `wall_in`. -/
noncomputable def UA_pm_of (cfg : Config) : ℝ :=
  let h := convective_h cfg.wind_mph
  match cfg.nested_cfg with
  | some n =>
      let ua := UA_per_mile_nested n.inner_nom_in n.outer_nom_in cfg.wall_in
        cfg.k_wall h n.k_eff_air
      if n.add_5pct then ua * 1.05 else ua
  | none =>
      let r_i := (cfg.id_in / 12.0) / 2.0
      let r_o := r_i + cfg.wall_in / 12.0
      compute_UA_per_mile r_i r_o cfg.k_wall h

/-- Total conductance `UA_total = UA_pm * length_miles`. -/
noncomputable def UA_total_of (cfg : Config) : ℝ :=
  UA_pm_of cfg * cfg.length_miles

/-- Flow samples `flows = np.arange(flow_min, flow_max + 1, flow_step)`. -/
noncomputable def flows (cfg : Config) : List ℝ :=
  arange cfg.flow_min (cfg.flow_max + 1) cfg.flow_step

/-- The engine `inlet_temp_curve`: resolves the conductances, sweeps the flow range and
returns the result rows together with `UA_pm` and `UA_total`. -/
noncomputable def inlet_temp_curve (cfg : Config) :
    List ThermalResult × ℝ × ℝ :=
  ((flows cfg).map (computeSample cfg.conds (UA_total_of cfg)),
    UA_pm_of cfg, UA_total_of cfg)

/-! Geometry resolution from the sidebar selection code. -/

/-- The three pipe-type choices of the selection UI. -/
inductive PipeType where
  | layflatTPU : PipeType
  | nestedTPU : PipeType
  | hdpe : PipeType

/-- Nominal diameter options: 4 to 24 inches in 2-inch increments. -/
def nominalOptions : List ℝ := [4, 6, 8, 10, 12, 14, 16, 18, 20, 22, 24]

/-- Lookup table `HDPE_OD_MAP`: IPS outer diameters keyed by nominal size. -/
noncomputable def HDPE_OD_MAP (nom : ℝ) : ℝ :=
  if nom = 4 then 4.500 else if nom = 6 then 6.625
  else if nom = 8 then 8.625 else if nom = 10 then 10.750
  else if nom = 12 then 12.750 else if nom = 14 then 14.000
  else if nom = 16 then 16.000 else if nom = 18 then 18.000
  else if nom = 20 then 20.000 else if nom = 22 then 22.000
  else if nom = 24 then 24.000 else 0

/-- HDPE dimension-ratio options. -/
def drOptions : List ℝ := [7, 9, 11, 13.5, 17, 21, 26, 32.5]

/-- Resolved geometry handed from the selection code to the engine. -/
structure Geometry where
  od_in : ℝ
  wall_in : ℝ
  id_in : ℝ
  k_wall : ℝ
  nested_cfg : Option NestedCfg

/-- The sidebar branch on `pipe_type` resolving geometry from the nominal
size (and, for HDPE, the dimension ratio). -/
noncomputable def resolveGeometry (pt : PipeType) (nom_d_in dr : ℝ) : Geometry :=
  match pt with
  | .layflatTPU =>
      { od_in := nom_d_in, wall_in := 0.15, id_in := nom_d_in - 2 * 0.15,
        k_wall := 0.116, nested_cfg := none }
  | .nestedTPU =>
      { od_in := nom_d_in + 4.0, wall_in := 0.15, id_in := nom_d_in - 2 * 0.15,
        k_wall := 0.116,
        nested_cfg := some { inner_nom_in := nom_d_in,
                             outer_nom_in := nom_d_in + 4.0,
                             k_eff_air := 0.08, add_5pct := true } }
  | .hdpe =>
      let od := HDPE_OD_MAP nom_d_in
      { od_in := od, wall_in := od / dr, id_in := od - 2 * (od / dr),
        k_wall := 0.26, nested_cfg := none }

/-! Shared facts about the loop body. -/

theorem mcp_def (f : ℝ) : mcp f = f * (42.0 * 8.34) * 60.0 := by
  unfold mcp m_dot cp lb_per_bbl; ring

theorem mcp_pos {f : ℝ} (hf : 0 < f) : 0 < mcp f := by
  rw [mcp_def]; nlinarith

theorem kExponent_of_pos (UA_total : ℝ) {f : ℝ} (hf : 0 < f) :
    kExponent UA_total f = UA_total / mcp f := by
  unfold kExponent
  rw [if_pos (mcp_pos hf)]

theorem kExponent_of_nonpos (UA_total : ℝ) {f : ℝ} (hf : f ≤ 0) :
    kExponent UA_total f = 0 := by
  have hm : ¬ mcp f > 0 := by rw [mcp_def]; nlinarith
  unfold kExponent
  rw [if_neg hm]
  norm_num

theorem computeSample_requiredInletTemp (c : Conditions) (UA_total f : ℝ) :
    (computeSample c UA_total f).requiredInletTemp
      = T_in_required c.T_amb c.T_out_target UA_total f := by
  unfold computeSample
  dsimp only
  split <;> rfl

theorem computeSample_heatLossRate (c : Conditions) (UA_total f : ℝ) :
    (computeSample c UA_total f).heatLossRate
      = Q_loss c.T_amb c.T_out_target UA_total f / 1e6 := by
  unfold computeSample
  dsimp only
  split <;> rfl

theorem curve_length (cfg : Config) :
    (inlet_temp_curve cfg).1.length = (flows cfg).length := by
  unfold inlet_temp_curve
  exact List.length_map _ _

/-- C7: when the mass flow rate of a sample is zero the guard `mcp > 0`
routes around the division: the exponent is 0, the required inlet
temperature collapses to the target outlet temperature, and the sweep still
produces one record per sample. -/
theorem zero_flow_fallback (c : Conditions) (UA_total : ℝ) (cfg : Config) :
    kExponent UA_total 0 = 0
    ∧ (computeSample c UA_total 0).requiredInletTemp = c.T_out_target
    ∧ (inlet_temp_curve cfg).1.length = (flows cfg).length := by
  have hk : kExponent UA_total 0 = 0 := kExponent_of_nonpos UA_total le_rfl
  refine ⟨hk, ?_, curve_length cfg⟩
  rw [computeSample_requiredInletTemp]
  unfold T_in_required
  rw [hk, Real.exp_zero]
  ring

/-- C10: a strictly negative flow makes `mcp` negative, so the guard
`mcp > 0` routes the sample through the zero-flow fallback: exponent 0,
required inlet temperature equal to the target, and zero heat loss. -/
theorem negative_flow_treated_as_zero (c : Conditions) (UA_total : ℝ)
    {f : ℝ} (hf : f < 0) :
    kExponent UA_total f = 0
    ∧ (computeSample c UA_total f).requiredInletTemp = c.T_out_target
    ∧ (computeSample c UA_total f).heatLossRate = 0 := by
  have hk : kExponent UA_total f = 0 := kExponent_of_nonpos UA_total hf.le
  have hreq : (computeSample c UA_total f).requiredInletTemp = c.T_out_target := by
    rw [computeSample_requiredInletTemp]
    unfold T_in_required
    rw [hk, Real.exp_zero]
    ring
  refine ⟨hk, hreq, ?_⟩
  rw [computeSample_heatLossRate]
  unfold Q_loss T_in_required
  rw [hk, Real.exp_zero]
  ring

/-- Witness for C10 at flow −1. -/
theorem negative_flow_treated_as_zero_witness :
    (-1 : ℝ) < 0
    ∧ (kExponent 1000 (-1) = 0
      ∧ (computeSample ⟨0, 35, 35, 0.75, 2.3, 91500⟩ 1000 (-1)).requiredInletTemp = 35
      ∧ (computeSample ⟨0, 35, 35, 0.75, 2.3, 91500⟩ 1000 (-1)).heatLossRate = 0) :=
  ⟨by norm_num,
    negative_flow_treated_as_zero ⟨0, 35, 35, 0.75, 2.3, 91500⟩ 1000 (by norm_num)⟩

/-- C5: substituting the computed required inlet temperature into the
forward outlet-temperature relation reproduces the target outlet
temperature exactly, for every flow sample with positive mass flow. -/
theorem required_inlet_roundtrip (c : Conditions) (UA_total : ℝ)
    {f : ℝ} (_hf : 0 < f) :
    c.T_amb + ((computeSample c UA_total f).requiredInletTemp - c.T_amb)
      * Real.exp (-(kExponent UA_total f)) = c.T_out_target := by
  rw [computeSample_requiredInletTemp]
  unfold T_in_required
  rw [Real.exp_neg]
  have h := Real.exp_ne_zero (kExponent UA_total f)
  field_simp

/-- Witness for C5 at flow 1. -/
theorem required_inlet_roundtrip_witness :
    (0 : ℝ) < 1
    ∧ (0 : ℝ) + ((computeSample ⟨0, 35, 40, 0.75, 2.3, 91500⟩ 1000 1).requiredInletTemp - 0)
      * Real.exp (-(kExponent 1000 1)) = 35 := by
  have h := required_inlet_roundtrip ⟨0, 35, 40, 0.75, 2.3, 91500⟩ 1000
    (show (0:ℝ) < 1 by norm_num)
  exact ⟨by norm_num, h⟩

theorem computeSample_heated (c : Conditions) (UA_total f : ℝ)
    (h : c.T_source < T_in_required c.T_amb c.T_out_target UA_total f) :
    (computeSample c UA_total f).heaterDuty
      = mcp f * (T_in_required c.T_amb c.T_out_target UA_total f - c.T_source) / 1e6
    ∧ (computeSample c UA_total f).dailyFuelCost
      = ((mcp f * (T_in_required c.T_amb c.T_out_target UA_total f - c.T_source) * 24)
          / c.eff_frac) / c.btu_per_unit * c.fuel_price
    ∧ (computeSample c UA_total f).outletTemp = c.T_out_target := by
  unfold computeSample
  dsimp only
  rw [if_pos h]
  exact ⟨rfl, rfl, rfl⟩

theorem computeSample_unheated (c : Conditions) (UA_total f : ℝ)
    (h : ¬ c.T_source < T_in_required c.T_amb c.T_out_target UA_total f) :
    (computeSample c UA_total f).heaterDuty = 0
    ∧ (computeSample c UA_total f).dailyFuelCost = 0
    ∧ (computeSample c UA_total f).outletTemp
      = c.T_amb + (c.T_source - c.T_amb) * Real.exp (-(kExponent UA_total f)) := by
  unfold computeSample
  dsimp only
  rw [if_neg h]
  exact ⟨rfl, rfl, rfl⟩

/-- C6: for a positive flow sample, heater duty and daily fuel cost vanish
exactly when the source temperature already meets the required inlet
temperature; otherwise they follow the duty and fuel-cost formulas (duty is
reported in MMBtu/hr, i.e. divided by 1e6, while the fuel cost uses the
raw Btu/hr duty). -/
theorem heater_economics_spec (c : Conditions) (UA_total : ℝ)
    {f : ℝ} (hf : 0 < f) :
    (((computeSample c UA_total f).heaterDuty = 0
        ∧ (computeSample c UA_total f).dailyFuelCost = 0)
      ↔ c.T_source ≥ (computeSample c UA_total f).requiredInletTemp)
    ∧ (c.T_source < (computeSample c UA_total f).requiredInletTemp →
        (computeSample c UA_total f).heaterDuty
          = mcp f * ((computeSample c UA_total f).requiredInletTemp - c.T_source) / 1e6
        ∧ (computeSample c UA_total f).dailyFuelCost
          = ((mcp f * ((computeSample c UA_total f).requiredInletTemp - c.T_source) * 24)
              / c.eff_frac) / c.btu_per_unit * c.fuel_price) := by
  rw [computeSample_requiredInletTemp]
  by_cases h : c.T_source < T_in_required c.T_amb c.T_out_target UA_total f
  · obtain ⟨hd, hc, _⟩ := computeSample_heated c UA_total f h
    constructor
    · constructor
      · rintro ⟨hd0, -⟩
        exfalso
        rw [hd] at hd0
        have hmcp := mcp_pos hf
        have : mcp f * (T_in_required c.T_amb c.T_out_target UA_total f - c.T_source) > 0 :=
          mul_pos hmcp (by linarith)
        rw [div_eq_zero_iff] at hd0
        rcases hd0 with h1 | h1 <;> nlinarith
      · intro hge
        exact absurd h (not_lt.mpr hge)
    · intro _
      exact ⟨hd, hc⟩
  · obtain ⟨hd, hc, _⟩ := computeSample_unheated c UA_total f h
    constructor
    · constructor
      · intro _
        exact not_lt.mp h
      · intro _
        exact ⟨hd, hc⟩
    · intro hlt
      exact absurd hlt h

/-- Witness for C6 at flow 1. -/
theorem heater_economics_spec_witness :
    (0 : ℝ) < 1
    ∧ ((((computeSample ⟨0, 35, 35, 0.75, 2.3, 91500⟩ 1000 1).heaterDuty = 0
        ∧ (computeSample ⟨0, 35, 35, 0.75, 2.3, 91500⟩ 1000 1).dailyFuelCost = 0)
      ↔ (35:ℝ) ≥ (computeSample ⟨0, 35, 35, 0.75, 2.3, 91500⟩ 1000 1).requiredInletTemp)
    ∧ ((35:ℝ) < (computeSample ⟨0, 35, 35, 0.75, 2.3, 91500⟩ 1000 1).requiredInletTemp →
        (computeSample ⟨0, 35, 35, 0.75, 2.3, 91500⟩ 1000 1).heaterDuty
          = mcp 1 * ((computeSample ⟨0, 35, 35, 0.75, 2.3, 91500⟩ 1000 1).requiredInletTemp - 35) / 1e6
        ∧ (computeSample ⟨0, 35, 35, 0.75, 2.3, 91500⟩ 1000 1).dailyFuelCost
          = ((mcp 1 * ((computeSample ⟨0, 35, 35, 0.75, 2.3, 91500⟩ 1000 1).requiredInletTemp - 35) * 24)
              / 0.75) / 91500 * 2.3)) :=
  ⟨by norm_num, heater_economics_spec ⟨0, 35, 35, 0.75, 2.3, 91500⟩ 1000 (by norm_num)⟩

/-- C8: in the no-heating branch with positive mass flow, the reported
outlet temperature follows the forward relation applied to the available
source temperature, and is at least the target outlet temperature. -/
theorem unheated_outlet_formula_ge_target (c : Conditions) (UA_total : ℝ)
    {f : ℝ} (_hf : 0 < f)
    (hsrc : c.T_source ≥ (computeSample c UA_total f).requiredInletTemp) :
    (computeSample c UA_total f).outletTemp
      = c.T_amb + (c.T_source - c.T_amb) * Real.exp (-(kExponent UA_total f))
    ∧ (computeSample c UA_total f).outletTemp ≥ c.T_out_target := by
  rw [computeSample_requiredInletTemp] at hsrc
  have hnb : ¬ c.T_source < T_in_required c.T_amb c.T_out_target UA_total f :=
    not_lt.mpr hsrc
  obtain ⟨-, -, hout⟩ := computeSample_unheated c UA_total f hnb
  refine ⟨hout, ?_⟩
  rw [hout]
  unfold T_in_required at hsrc
  set k := kExponent UA_total f with hk
  have hIpos := Real.exp_pos (-k)
  have hEI : Real.exp k * Real.exp (-k) = 1 := by
    rw [← Real.exp_add]
    simp
  have h1 : (c.T_out_target - c.T_amb) * Real.exp k ≤ c.T_source - c.T_amb := by
    linarith
  have h2 := mul_le_mul_of_nonneg_right h1 hIpos.le
  have h3 : (c.T_out_target - c.T_amb) * Real.exp k * Real.exp (-k)
      = c.T_out_target - c.T_amb := by
    rw [mul_assoc, hEI, mul_one]
  linarith [h2, h3]

/-- Witness for C8 at flow 1 with zero conductance. -/
theorem unheated_outlet_formula_ge_target_witness :
    ((0 : ℝ) < 1
      ∧ (35:ℝ) ≥ (computeSample ⟨0, 35, 35, 0.75, 2.3, 91500⟩ 0 1).requiredInletTemp)
    ∧ ((computeSample ⟨0, 35, 35, 0.75, 2.3, 91500⟩ 0 1).outletTemp
        = 0 + ((35:ℝ) - 0) * Real.exp (-(kExponent 0 1))
      ∧ (computeSample ⟨0, 35, 35, 0.75, 2.3, 91500⟩ 0 1).outletTemp ≥ 35) := by
  have hreq : (computeSample ⟨0, 35, 35, 0.75, 2.3, 91500⟩ 0 1).requiredInletTemp
      = (35:ℝ) := by
    rw [computeSample_requiredInletTemp]
    unfold T_in_required kExponent
    split <;> norm_num
  have hsrc : (35:ℝ) ≥ (computeSample ⟨0, 35, 35, 0.75, 2.3, 91500⟩ 0 1).requiredInletTemp := by
    rw [hreq]
  exact ⟨⟨by norm_num, hsrc⟩,
    unheated_outlet_formula_ge_target ⟨0, 35, 35, 0.75, 2.3, 91500⟩ 0 (by norm_num) hsrc⟩

/-- C9: the reported heat loss equals `mcp · (requiredInletTemp −
targetOutletTemp)` (scaled by 1e6 for display) in both branches; when the
source is strictly warmer than required (positive flow, positive
conductance) it differs from the actual operating loss
`mcp · (sourceTemp − actualOutletTemp)`. -/
theorem heatloss_reported_vs_actual (c : Conditions) (UA_total : ℝ)
    {f : ℝ} (hf : 0 < f) (hUA : 0 < UA_total)
    (hsrc : c.T_source > (computeSample c UA_total f).requiredInletTemp) :
    (computeSample c UA_total f).heatLossRate
      = mcp f * ((computeSample c UA_total f).requiredInletTemp - c.T_out_target) / 1e6
    ∧ mcp f * ((computeSample c UA_total f).requiredInletTemp - c.T_out_target)
      ≠ mcp f * (c.T_source - (computeSample c UA_total f).outletTemp) := by
  have hmcp := mcp_pos hf
  rw [computeSample_requiredInletTemp] at hsrc ⊢
  have heq : (computeSample c UA_total f).heatLossRate
      = mcp f * (T_in_required c.T_amb c.T_out_target UA_total f - c.T_out_target) / 1e6 := by
    rw [computeSample_heatLossRate]
    unfold Q_loss
    ring
  refine ⟨heq, ?_⟩
  have hnb : ¬ c.T_source < T_in_required c.T_amb c.T_out_target UA_total f :=
    not_lt.mpr hsrc.le
  obtain ⟨-, -, hout⟩ := computeSample_unheated c UA_total f hnb
  rw [hout]
  have hkpos : 0 < kExponent UA_total f := by
    rw [kExponent_of_pos UA_total hf]
    exact div_pos hUA hmcp
  have hIpos := Real.exp_pos (-(kExponent UA_total f))
  have hIlt1 : Real.exp (-(kExponent UA_total f)) < 1 := by
    rw [show (1:ℝ) = Real.exp 0 by rw [Real.exp_zero]]
    exact Real.exp_lt_exp.mpr (by linarith)
  have hEI : Real.exp (kExponent UA_total f) * Real.exp (-(kExponent UA_total f)) = 1 := by
    rw [← Real.exp_add]
    simp
  unfold T_in_required at hsrc ⊢
  apply ne_of_lt
  have h1 : (c.T_out_target - c.T_amb) * Real.exp (kExponent UA_total f)
      < c.T_source - c.T_amb := by
    linarith
  have h2 := mul_lt_mul_of_pos_right h1
    (by linarith : (0:ℝ) < 1 - Real.exp (-(kExponent UA_total f)))
  have h3 : (c.T_out_target - c.T_amb) * Real.exp (kExponent UA_total f)
        * (1 - Real.exp (-(kExponent UA_total f)))
      = (c.T_out_target - c.T_amb) * Real.exp (kExponent UA_total f)
        - (c.T_out_target - c.T_amb) := by
    rw [mul_sub, mul_one, mul_assoc, hEI, mul_one]
  have h4 : (c.T_out_target - c.T_amb) * Real.exp (kExponent UA_total f)
        - (c.T_out_target - c.T_amb)
      < (c.T_source - c.T_amb) * (1 - Real.exp (-(kExponent UA_total f))) := by
    linarith [h2, h3]
  have h5 := mul_lt_mul_of_pos_left h4 hmcp
  nlinarith [h5]

/-- A conductance equal to `mcp 1`, so the decay exponent at flow 1 is
exactly 1 (reachable: `UA_total = UA_pm * length_miles` with free length). -/
noncomputable def UAone : ℝ := 42.0 * 8.34 * 60.0

theorem UAone_pos : 0 < UAone := by unfold UAone; norm_num

theorem kExponent_UAone_one : kExponent UAone 1 = 1 := by
  rw [kExponent_of_pos _ one_pos, mcp_def]
  unfold UAone
  norm_num

/-- Witness for C9: at flow 1, exponent 1, target 1 above ambient and
source 3 above ambient, the reported loss differs from the operating loss. -/
theorem heatloss_reported_vs_actual_witness :
    ((0:ℝ) < 1 ∧ (0:ℝ) < UAone
      ∧ (3:ℝ) > (computeSample ⟨0, 1, 3, 0.75, 2.3, 91500⟩ UAone 1).requiredInletTemp)
    ∧ ((computeSample ⟨0, 1, 3, 0.75, 2.3, 91500⟩ UAone 1).heatLossRate
        = mcp 1 * ((computeSample ⟨0, 1, 3, 0.75, 2.3, 91500⟩ UAone 1).requiredInletTemp - 1) / 1e6
      ∧ mcp 1 * ((computeSample ⟨0, 1, 3, 0.75, 2.3, 91500⟩ UAone 1).requiredInletTemp - 1)
        ≠ mcp 1 * (3 - (computeSample ⟨0, 1, 3, 0.75, 2.3, 91500⟩ UAone 1).outletTemp)) := by
  have hreq : (computeSample ⟨0, 1, 3, 0.75, 2.3, 91500⟩ UAone 1).requiredInletTemp
      = Real.exp 1 := by
    rw [computeSample_requiredInletTemp]
    unfold T_in_required
    rw [kExponent_UAone_one]
    norm_num
  have hsrc : (3:ℝ) > (computeSample ⟨0, 1, 3, 0.75, 2.3, 91500⟩ UAone 1).requiredInletTemp := by
    rw [hreq]
    have := Real.exp_one_lt_d9
    linarith
  exact ⟨⟨by norm_num, UAone_pos, hsrc⟩,
    heatloss_reported_vs_actual ⟨0, 1, 3, 0.75, 2.3, 91500⟩ UAone
      (by norm_num) UAone_pos hsrc⟩

/-- Hot-ambient conditions (ambient 100, target outlet 0) used to exhibit a
negative computed heat loss. -/
noncomputable def cHot : Conditions :=
  { T_amb := 100, T_out_target := 0, T_source := 200,
    eff_frac := 0.75, fuel_price := 2.3, btu_per_unit := 91500 }

/-- Counterexample to C1 as stated: with ambient above the target outlet
temperature (ambient 100, target 0, exponent 1 at flow 1) the computed heat
loss rate is strictly negative. -/
theorem heatLoss_negative_example :
    (computeSample cHot UAone 1).heatLossRate < 0 := by
  rw [computeSample_heatLossRate]
  apply div_neg_of_neg_of_pos _ (by norm_num)
  unfold Q_loss T_in_required cHot
  rw [kExponent_UAone_one]
  have h2 : (2:ℝ) ≤ Real.exp 1 := by
    have := Real.add_one_le_exp (1:ℝ)
    linarith
  have hm : mcp 1 = 42.0 * 8.34 * 60.0 := by rw [mcp_def]; ring
  rw [hm]
  dsimp only
  nlinarith [h2]

/-- C1 amended: the computed heat loss rate is nonnegative whenever the
target outlet temperature is at least the ambient temperature and the
conductance is nonnegative (for every flow rate, positive or not). -/
theorem heatLossRate_nonneg_of_target_ge_amb (c : Conditions) (UA_total f : ℝ)
    (hUA : 0 ≤ UA_total) (hT : c.T_amb ≤ c.T_out_target) :
    0 ≤ (computeSample c UA_total f).heatLossRate := by
  rw [computeSample_heatLossRate]
  apply div_nonneg _ (by norm_num)
  unfold Q_loss T_in_required
  by_cases hm : mcp f > 0
  · have hk : kExponent UA_total f = UA_total / mcp f := by
      unfold kExponent
      rw [if_pos hm]
    have hknn : 0 ≤ kExponent UA_total f := by
      rw [hk]
      exact div_nonneg hUA hm.le
    have he := Real.add_one_le_exp (kExponent UA_total f)
    nlinarith [mul_nonneg (mul_nonneg hm.le (sub_nonneg.mpr hT))
      (by linarith : (0:ℝ) ≤ Real.exp (kExponent UA_total f) - 1)]
  · have hk : kExponent UA_total f = 0 := by
      unfold kExponent
      rw [if_neg hm]
      norm_num
    rw [hk, Real.exp_zero]
    have hz : c.T_amb + (c.T_out_target - c.T_amb) * 1 - c.T_out_target = 0 := by ring
    rw [hz, mul_zero]

/-- Witness for C1 (amended) at flow 1. -/
theorem heatLossRate_nonneg_witness :
    ((0:ℝ) ≤ 1000 ∧ (0:ℝ) ≤ 35)
    ∧ 0 ≤ (computeSample ⟨0, 35, 35, 0.75, 2.3, 91500⟩ 1000 1).heatLossRate :=
  ⟨⟨by norm_num, by norm_num⟩,
    heatLossRate_nonneg_of_target_ge_amb ⟨0, 35, 35, 0.75, 2.3, 91500⟩ 1000 1
      (by norm_num) (by norm_num)⟩

/-- Counterexample to C2 as stated: with ambient 100 above target 0, the
required inlet temperature strictly increases from flow 1 to flow 2. -/
theorem requiredInlet_increasing_example :
    T_in_required 100 0 UAone 1 < T_in_required 100 0 UAone 2 := by
  unfold T_in_required
  rw [kExponent_UAone_one]
  have hk2 : kExponent UAone 2 = 1 / 2 := by
    rw [kExponent_of_pos _ (by norm_num : (0:ℝ) < 2), mcp_def]
    unfold UAone
    norm_num
  rw [hk2]
  have hlt := Real.exp_lt_exp.mpr (show (1:ℝ)/2 < 1 by norm_num)
  linarith

/-- C2 amended: for nonnegative conductance and a target outlet temperature
at least the ambient temperature, the required inlet temperature is
monotonically non-increasing in the flow rate over positive flows. -/
theorem requiredInlet_antitone_of_target_ge_amb (T_amb T_out_target UA_total : ℝ)
    {f1 f2 : ℝ} (hUA : 0 ≤ UA_total) (hT : T_amb ≤ T_out_target)
    (h1 : 0 < f1) (h12 : f1 ≤ f2) :
    T_in_required T_amb T_out_target UA_total f2
      ≤ T_in_required T_amb T_out_target UA_total f1 := by
  have h2 : 0 < f2 := lt_of_lt_of_le h1 h12
  have hm1 := mcp_pos h1
  have hmle : mcp f1 ≤ mcp f2 := by
    rw [mcp_def, mcp_def]
    nlinarith
  have hk : kExponent UA_total f2 ≤ kExponent UA_total f1 := by
    rw [kExponent_of_pos _ h1, kExponent_of_pos _ h2]
    gcongr
  unfold T_in_required
  have hexp := Real.exp_le_exp.mpr hk
  have := mul_le_mul_of_nonneg_left hexp (sub_nonneg.mpr hT)
  linarith

/-- Witness for C2 (amended) at flows 1 and 2. -/
theorem requiredInlet_antitone_witness :
    ((0:ℝ) ≤ 1000 ∧ (0:ℝ) ≤ 35 ∧ (0:ℝ) < 1 ∧ (1:ℝ) ≤ 2)
    ∧ T_in_required 0 35 1000 2 ≤ T_in_required 0 35 1000 1 :=
  ⟨⟨by norm_num, by norm_num, by norm_num, by norm_num⟩,
    requiredInlet_antitone_of_target_ge_amb 0 35 1000
      (by norm_num) (by norm_num) (by norm_num) (by norm_num)⟩

theorem arange_index_lt_iff {start stop step : ℝ} (hst : 0 < step) (i : ℕ) :
    i < (⌈(stop - start) / step⌉).toNat ↔ start + (i : ℝ) * step < stop := by
  rw [Int.lt_toNat, Int.lt_ceil, lt_div_iff₀ hst]
  push_cast
  constructor <;> intro h <;> linarith

/-- C3 amended: for a valid flow range the samples are exactly the
ascending arithmetic values `min + i·step` strictly below `max + 1`
(numpy `arange(min, max + 1, step)` semantics); `max` itself appears
exactly when it is of the form `min + i·step`; the sweep emits one record
per sample. -/
theorem flows_arange_spec (mn mx st : ℝ)
    (_hmn : 0 < mn) (_hle : mn ≤ mx) (hst : 0 < st) :
    (∀ x, x ∈ arange mn (mx + 1) st ↔ ∃ i : ℕ, x = mn + (i : ℝ) * st ∧ x < mx + 1)
    ∧ (arange mn (mx + 1) st).Pairwise (· < ·)
    ∧ ((mx ∈ arange mn (mx + 1) st) ↔ ∃ i : ℕ, mx = mn + (i : ℝ) * st)
    ∧ ∀ cfg : Config, (inlet_temp_curve cfg).1.length = (flows cfg).length := by
  have hmem : ∀ x, x ∈ arange mn (mx + 1) st
      ↔ ∃ i : ℕ, x = mn + (i : ℝ) * st ∧ x < mx + 1 := by
    intro x
    unfold arange
    simp only [List.mem_map, List.mem_range]
    constructor
    · rintro ⟨i, hi, rfl⟩
      exact ⟨i, rfl, (arange_index_lt_iff hst i).mp hi⟩
    · rintro ⟨i, rfl, hlt⟩
      exact ⟨i, (arange_index_lt_iff hst i).mpr hlt, rfl⟩
  refine ⟨hmem, ?_, ?_, curve_length⟩
  · unfold arange
    refine List.Pairwise.map _ ?_ (List.pairwise_lt_range _)
    intro a b hab
    have hab' : (a : ℝ) < (b : ℝ) := by exact_mod_cast hab
    nlinarith
  · rw [hmem mx]
    constructor
    · rintro ⟨i, hi, -⟩
      exact ⟨i, hi⟩
    · rintro ⟨i, hi⟩
      exact ⟨i, hi, by linarith⟩

/-- Witness for C3 (amended) on the default range 15..60 step 5. -/
theorem flows_arange_spec_witness :
    ((0:ℝ) < 15 ∧ (15:ℝ) ≤ 60 ∧ (0:ℝ) < 5)
    ∧ ((∀ x, x ∈ arange 15 (60 + 1) 5 ↔ ∃ i : ℕ, x = 15 + (i : ℝ) * 5 ∧ x < 60 + 1)
      ∧ (arange 15 (60 + 1) 5).Pairwise (· < ·)
      ∧ (((60:ℝ) ∈ arange 15 (60 + 1) 5) ↔ ∃ i : ℕ, (60:ℝ) = 15 + (i : ℝ) * 5)
      ∧ ∀ cfg : Config, (inlet_temp_curve cfg).1.length = (flows cfg).length) :=
  ⟨⟨by norm_num, by norm_num, by norm_num⟩,
    flows_arange_spec 15 60 5 (by norm_num) (by norm_num) (by norm_num)⟩

/-- A configuration whose flow range is min 1, max 2, step 2. -/
noncomputable def cfg3 : Config :=
  { T_amb := 0, wind_mph := 5, length_miles := 5, id_in := 11.7, wall_in := 0.15,
    k_wall := 0.116, T_out_target := 35, T_source := 35, eff_frac := 0.75,
    fuel_price := 2.3, btu_per_unit := 91500, flow_min := 1, flow_max := 2,
    flow_step := 2, nested_cfg := none }

/-- Counterexample to C3 as stated: for the valid range min 1, max 2,
step 2, the sample list is `[1]` — the maximum flow 2 is not included. -/
theorem flows_omit_max_example :
    cfg3.flow_min = 1 ∧ cfg3.flow_max = 2 ∧ cfg3.flow_step = 2
    ∧ flows cfg3 = [1] ∧ (2:ℝ) ∉ flows cfg3 := by
  have hflows : flows cfg3 = [1] := by
    show arange 1 (2 + 1) 2 = [1]
    unfold arange
    have h : (((2:ℝ) + 1) - 1) / 2 = 1 := by norm_num
    rw [h, Int.ceil_one, Int.toNat_one]
    simp [List.range_succ]
  refine ⟨rfl, rfl, rfl, hflows, ?_⟩
  rw [hflows]
  simp only [List.mem_singleton]
  norm_num

/-- C4 amended: no selectable combination of pipe family, nominal size and
DR rating resolves to a non-positive inside diameter (so the error path the
spec describes is unreachable), and the engine performs no geometry
validation — it emits one record per flow sample unconditionally. -/
theorem resolveGeometry_id_pos (pt : PipeType) {nom dr : ℝ}
    (hnom : nom ∈ nominalOptions) (hdr : dr ∈ drOptions) :
    0 < (resolveGeometry pt nom dr).id_in
    ∧ ∀ cfg : Config, (inlet_temp_curve cfg).1.length = (flows cfg).length := by
  refine ⟨?_, curve_length⟩
  cases pt
  case layflatTPU =>
    fin_cases hnom <;> norm_num [resolveGeometry]
  case nestedTPU =>
    fin_cases hnom <;> norm_num [resolveGeometry]
  case hdpe =>
    fin_cases hnom <;> fin_cases hdr <;> norm_num [resolveGeometry, HDPE_OD_MAP]

/-- Witness for C4 (amended): HDPE, nominal 4, DR 7. -/
theorem resolveGeometry_id_pos_witness :
    ((4:ℝ) ∈ nominalOptions ∧ (7:ℝ) ∈ drOptions)
    ∧ (0 < (resolveGeometry .hdpe 4 7).id_in
      ∧ ∀ cfg : Config, (inlet_temp_curve cfg).1.length = (flows cfg).length) :=
  ⟨⟨by simp [nominalOptions], by simp [drOptions]⟩,
    resolveGeometry_id_pos .hdpe (by simp [nominalOptions]) (by simp [drOptions])⟩

/-- A configuration with a non-positive inside diameter (−1 in). -/
noncomputable def cfgBad : Config :=
  { T_amb := 0, wind_mph := 5, length_miles := 5, id_in := -1, wall_in := 0.15,
    k_wall := 0.116, T_out_target := 35, T_source := 35, eff_frac := 0.75,
    fuel_price := 2.3, btu_per_unit := 91500, flow_min := 15, flow_max := 15,
    flow_step := 5, nested_cfg := none }

/-- Counterexample to C4 as stated: with inside diameter −1 the calculation
is not refused — a (full, one-row) result table is still produced. -/
theorem table_produced_despite_nonpos_id :
    cfgBad.id_in ≤ 0 ∧ (inlet_temp_curve cfgBad).1.length = 1 := by
  constructor
  · show (-1 : ℝ) ≤ 0
    norm_num
  · rw [curve_length]
    show (arange 15 (15 + 1) 5).length = 1
    unfold arange
    rw [List.length_map, List.length_range]
    have h : (((15:ℝ) + 1) - 15) / 5 = 1 / 5 := by norm_num
    rw [h]
    have hc : ⌈(1 / 5 : ℝ)⌉ = 1 := by
      rw [Int.ceil_eq_iff]
      norm_num
    rw [hc]
    rfl

end PipeHeatLoss
